import Mathlib

/-!
Shallow embedding of the brainfuck interpreter/optimizer pipeline
(repository Chr1sps/brainfuck).

The crate root (`src/lib.rs`) holds the current, nested-representation
pipeline: `Statement`, `BrainfuckMachine` (panicking bounds), `Parser`
(recursive descent, nested `Loop` nodes), `Optimizer` (peephole fusion
passes) and `Interpreter` (`run_code` / `run_loop`).  The historical
module `src/brainfuck.rs` holds the policy-configurable machine
(`wrap_tape` / `wrap_cells`, `add_with_wrap` / `sub_with_wrap`); it is
embedded in the `brainfuck` namespace below.

Modelling conventions:
* Rust `u8` is `Fin 256` (`wrapping_add` is `Fin` addition).
* Rust `usize` is `Nat`; where the source can panic (overflow of a
  subtraction, out-of-bounds indexing, unwrap) the embedded operation
  returns `Option`/`none` for the panic.  `saturating_sub` is plain
  `Nat` subtraction; `saturating_add` caps at `usize::MAX = 2 ^ 64 - 1`.
* `Vec::push` accumulation is rendered as list concatenation in
  emission order.
-/

/-- Rust `usize::MAX` (the target of the repository is 64-bit unix). -/
def USIZE_MAX : Nat := 2 ^ 64 - 1

/-- Rust debug-mode `usize` subtraction: panics (`none`) on underflow. -/
def checked_sub (a b : Nat) : Option Nat :=
  if b ≤ a then some (a - b) else none

/-- Rust debug-mode `usize` addition: panics (`none`) on overflow. -/
def checked_add (a b : Nat) : Option Nat :=
  if a + b ≤ USIZE_MAX then some (a + b) else none

/-- Truncating cast `usize as u8` (also used for `wrapping_add` input). -/
def toU8 (n : Nat) : Fin 256 := ⟨n % 256, Nat.mod_lt n (by omega)⟩

/-- The nested statement representation of `src/lib.rs`:
`MoveLeft(usize) | MoveRight(usize) | Add(u8) | Loop(Box<Vec<Statement>>)
| PutChar | ReadChar`. -/
inductive Statement where
  | moveLeft : Nat → Statement
  | moveRight : Nat → Statement
  | add : Fin 256 → Statement
  | loop : List Statement → Statement
  | putChar : Statement
  | readChar : Statement

/-- Structural equality test (Rust `PartialEq` derived on `Statement`). -/
def Statement.beq : Statement → Statement → Bool
  | .moveLeft a, .moveLeft b => a == b
  | .moveRight a, .moveRight b => a == b
  | .add a, .add b => a == b
  | .loop a, .loop b => go a b
  | .putChar, .putChar => true
  | .readChar, .readChar => true
  | _, _ => false
where go : List Statement → List Statement → Bool
  | [], [] => true
  | a :: as, b :: bs => a.beq b && go as bs
  | _, _ => false

/-- `Statement::is_equal_type`: `mem::discriminant` comparison. -/
def Statement.is_equal_type : Statement → Statement → Bool
  | .moveLeft _, .moveLeft _ => true
  | .moveRight _, .moveRight _ => true
  | .add _, .add _ => true
  | .loop _, .loop _ => true
  | .putChar, .putChar => true
  | .readChar, .readChar => true
  | _, _ => false

/-- `Statement::is_move`. -/
def Statement.is_move : Statement → Bool
  | .moveLeft _ | .moveRight _ => true
  | _ => false

/-- `Statement::new_loop`. -/
def Statement.new_loop (statements : List Statement) : Statement :=
  .loop statements

/-- `Optimizer::generate_optimized_stmt`.  The Rust function also zeroes
the `value` counter through its `&mut` argument; that reset is modelled
at each call site of the embedding. -/
def generate_optimized_stmt (stmt_type : Statement) (value : Nat) :
    Option Statement :=
  match value with
  | 0 => none
  | _ =>
    match stmt_type with
    | .add _ => some (.add (toU8 value))
    | .moveLeft _ => some (.moveLeft value)
    | .moveRight _ => some (.moveRight value)
    | _ => none

/-- One peephole scan (the shared loop body of `Optimizer::optimize_once`
and `Optimizer::optimize_loop`), with the running state made explicit:
`last` is `last_statement`, `count` is `stmt_count`, and the remaining
input is the third argument.  The base case is the trailing
`generate_optimized_stmt` flush after the `for` loop. -/
def passGo (last : Statement) (count : Nat) : List Statement → List Statement
  | [] => (generate_optimized_stmt last count).toList
  | statement :: rest =>
    let doFlush :=
      !(statement.is_equal_type last) && (!statement.is_move || !last.is_move)
    let pre := if doFlush then (generate_optimized_stmt last count).toList else []
    let c0 := if doFlush then 0 else count
    match statement with
    | .moveLeft value =>
      match last with
      | .moveLeft _ => pre ++ passGo statement (c0 + value) rest
      | .moveRight _ =>
        if c0 < value then pre ++ passGo statement (value - c0) rest
        else pre ++ passGo last (c0 - value) rest
      | _ => pre ++ passGo statement value rest
    | .moveRight value =>
      match last with
      | .moveRight _ => pre ++ passGo statement (c0 + value) rest
      | .moveLeft _ =>
        if c0 < value then pre ++ passGo statement (value - c0) rest
        else pre ++ passGo last (c0 - value) rest
      | _ => pre ++ passGo statement value rest
    | .add value =>
      match last with
      | .add _ => pre ++ passGo statement (value + toU8 c0).val rest
      | _ => pre ++ passGo statement value.val rest
    | .putChar => pre ++ .putChar :: passGo statement c0 rest
    | .readChar => pre ++ .readChar :: passGo statement c0 rest
    | .loop _ => pre ++ (optimize_loop statement).toList ++ passGo statement c0 rest
where
  /-- `Optimizer::optimize_loop`: recursively optimizes a loop body and
  always rebuilds `Some(Loop(result))`; the non-loop arm is the source's
  `panic!`. -/
  optimize_loop : Statement → Option Statement
  | .loop body => some (.loop (passGo .readChar 0 body))
  | _ => none

/-- `Optimizer::optimize_once`: the scan starts with
`stmt_count = 0` and `last_statement = Statement::ReadChar`. -/
def optimize_once (statements : List Statement) : List Statement :=
  passGo .readChar 0 statements

/-- Node count of a statement list (loops count their body recursively);
the measure for optimizer-pass termination. -/
def szList : List Statement → Nat
  | [] => 0
  | s :: rest => sz s + szList rest
where
  /-- Node count of one statement. -/
  sz : Statement → Nat
  | .loop b => 1 + szList b
  | _ => 1

theorem Statement.beq_iff : ∀ a b : Statement, (Statement.beq a b = true) ↔ a = b := by
  apply Statement.beq.induct
    (fun a b => (Statement.beq.go a b = true) ↔ a = b)
    (fun a b => (Statement.beq a b = true) ↔ a = b) <;> intros
  case _ => simp [Statement.beq]
  case _ => simp [Statement.beq]
  case _ => simp [Statement.beq]
  case _ a b ih => simpa [Statement.beq] using ih
  case _ => simp [Statement.beq]
  case _ => simp [Statement.beq]
  case _ t x h1 h2 h3 h4 h5 h6 =>
    cases t <;> cases x <;>
      first
        | exact (h1 _ _ rfl rfl).elim
        | exact (h2 _ _ rfl rfl).elim
        | exact (h3 _ _ rfl rfl).elim
        | exact (h4 _ _ rfl rfl).elim
        | exact (h5 rfl rfl).elim
        | exact (h6 rfl rfl).elim
        | simp [Statement.beq]
  case _ => simp [Statement.beq.go]
  case _ a as b bs ih1 ih2 => simp [Statement.beq.go, ih1, ih2]
  case _ t x h1 h2 =>
    cases t <;> cases x <;>
      first
        | exact (h1 rfl rfl).elim
        | exact (h2 _ _ _ _ rfl rfl).elim
        | simp [Statement.beq.go]

instance : DecidableEq Statement := fun a b =>
  decidable_of_iff _ (Statement.beq_iff a b)

/-- The tape machine of `src/lib.rs` (no overflow policies; moves panic
when out of bounds). -/
structure BrainfuckMachine where
  size : Nat
  index : Nat
  tape : List (Fin 256)
  deriving DecidableEq

/-- `BrainfuckMachine::new`: zero-initialized tape, cursor at 0. -/
def BrainfuckMachine.new (size : Nat) : BrainfuckMachine :=
  ⟨size, 0, List.replicate size 0⟩

/-- `BrainfuckMachine::move_left` (lib.rs): panics (`none`) when
`shift > index`, otherwise subtracts. -/
def BrainfuckMachine.move_left (m : BrainfuckMachine) (shift : Nat) :
    Option BrainfuckMachine :=
  if shift > m.index then none else some { m with index := m.index - shift }

/-- `BrainfuckMachine::move_right` (lib.rs): panics (`none`) when
`shift > size - index`, otherwise adds.  (`size - index` is `Nat`
subtraction; the executor maintains `index ≤ size` so the Rust
`usize` subtraction never underflows.) -/
def BrainfuckMachine.move_right (m : BrainfuckMachine) (shift : Nat) :
    Option BrainfuckMachine :=
  if shift > m.size - m.index then none else some { m with index := m.index + shift }

/-- `BrainfuckMachine::add` (lib.rs): wrapping add into the current cell;
`none` models the indexing panic when the cursor is out of range. -/
def BrainfuckMachine.add (m : BrainfuckMachine) (value : Fin 256) :
    Option BrainfuckMachine :=
  (m.tape.get? m.index).map fun current =>
    { m with tape := m.tape.set m.index (current + value) }

/-- `BrainfuckMachine::substract` (lib.rs): wrapping subtract. -/
def BrainfuckMachine.substract (m : BrainfuckMachine) (value : Fin 256) :
    Option BrainfuckMachine :=
  (m.tape.get? m.index).map fun current =>
    { m with tape := m.tape.set m.index (current - value) }

/-- `BrainfuckMachine::read_char` (lib.rs): stores `input as u8`. -/
def BrainfuckMachine.read_char (m : BrainfuckMachine) (input : Char) :
    Option BrainfuckMachine :=
  (m.tape.get? m.index).map fun _ =>
    { m with tape := m.tape.set m.index (toU8 input.toNat) }

/-- `BrainfuckMachine::put_char` (lib.rs): the current cell as a char. -/
def BrainfuckMachine.put_char (m : BrainfuckMachine) : Option Char :=
  (m.tape.get? m.index).map fun current => Char.ofNat current.val

/-- `BrainfuckMachine::check_loop` (lib.rs): whether the current cell is
non-zero.  (Defined by the source but never called by the executor.) -/
def BrainfuckMachine.check_loop (m : BrainfuckMachine) : Option Bool :=
  (m.tape.get? m.index).map fun current => current ≠ 0

/-- Executor state: the machine plus the character input and output
streams of the host environment. -/
structure RunState where
  machine : BrainfuckMachine
  stdin : List Char
  stdout : List Char
  deriving DecidableEq

/-- `Interpreter::get_char`: reads one character from stdin; the
`read_exact(..).unwrap()` panic on exhausted input is `none`. -/
def RunState.get_char : RunState → Option (Char × RunState)
  | ⟨_, [], _⟩ => none
  | ⟨m, c :: rest, out⟩ => some (c, ⟨m, rest, out⟩)

/-- `Interpreter::run_code` over a statement list (the same
statement-dispatch is used by `run_loop` for loop bodies).  `none` is an
executor panic. -/
def run_code : List Statement → RunState → Option RunState
  | [], st => some st
  | statement :: rest, st =>
    match statement with
    | .moveLeft value =>
      match st.machine.move_left value with
      | none => none
      | some m => run_code rest { st with machine := m }
    | .moveRight value =>
      match st.machine.move_right value with
      | none => none
      | some m => run_code rest { st with machine := m }
    | .add value =>
      match st.machine.add value with
      | none => none
      | some m => run_code rest { st with machine := m }
    | .readChar =>
      match st.get_char with
      | none => none
      | some (chr, st1) =>
        match st1.machine.read_char chr with
        | none => none
        | some m => run_code rest { st1 with machine := m }
    | .putChar =>
      match st.machine.put_char with
      | none => none
      | some chr => run_code rest { st with stdout := st.stdout ++ [chr] }
    | .loop _ =>
      match run_loop statement st with
      | none => none
      | some st1 => run_code rest st1
where
  /-- `Interpreter::run_loop`: executes the loop body exactly once,
  without consulting `check_loop`; the non-loop arm is the source's
  `panic!`. -/
  run_loop : Statement → RunState → Option RunState
  | .loop body, st => run_code body st
  | _, _ => none

/-- The token alphabet of `src/lib.rs`. -/
inductive Token where
  | increment
  | decrement
  | shiftLeft
  | shiftRight
  | startLoop
  | endLoop
  | putChar
  | readChar
  deriving DecidableEq

/-- `Lexer::tokenize`: recognized bytes map to `Some` token, everything
else to `None`. -/
def tokenize : Char → Option Token
  | '+' => some .increment
  | '-' => some .decrement
  | '<' => some .shiftLeft
  | '>' => some .shiftRight
  | ',' => some .readChar
  | '.' => some .putChar
  | '[' => some .startLoop
  | ']' => some .endLoop
  | _ => none

/-- The literal message of the `Parser::parse_loop` end-of-input error. -/
def unmatchedStartMsg : String :=
  "Error: \x27[\x27 found with no matching \x27]\x27."

/-- The literal message of the `Parser::parse` unmatched-`]` error. -/
def unmatchedEndMsg : String :=
  "Error: \x27]\x27 found with no matching \x27[\x27."

/-- `Parser::parse_loop`: consumes characters after a `[`, accumulating
`statements`; a matching `]` yields `Ok(None)` for an empty body (loop
elided) and `Ok(Some(Loop(..)))` otherwise, together with the remaining
input; end of input is the unmatched-`[` error.  The returned remainder
carries its length bound so the recursion is well founded. -/
def parse_loop (statements : List Statement) :
    (input : List Char) →
      Except String (Option Statement × { r : List Char // r.length ≤ input.length })
  | [] => .error unmatchedStartMsg
  | c :: rest =>
    match tokenize c with
    | none =>
      match parse_loop statements rest with
      | .error e => .error e
      | .ok (o, ⟨r, hr⟩) => .ok (o, ⟨r, by simpa using Nat.le_succ_of_le hr⟩)
    | some .increment =>
      match parse_loop (statements ++ [.add 1]) rest with
      | .error e => .error e
      | .ok (o, ⟨r, hr⟩) => .ok (o, ⟨r, by simpa using Nat.le_succ_of_le hr⟩)
    | some .decrement =>
      match parse_loop (statements ++ [.add 255]) rest with
      | .error e => .error e
      | .ok (o, ⟨r, hr⟩) => .ok (o, ⟨r, by simpa using Nat.le_succ_of_le hr⟩)
    | some .shiftLeft =>
      match parse_loop (statements ++ [.moveLeft 1]) rest with
      | .error e => .error e
      | .ok (o, ⟨r, hr⟩) => .ok (o, ⟨r, by simpa using Nat.le_succ_of_le hr⟩)
    | some .shiftRight =>
      match parse_loop (statements ++ [.moveRight 1]) rest with
      | .error e => .error e
      | .ok (o, ⟨r, hr⟩) => .ok (o, ⟨r, by simpa using Nat.le_succ_of_le hr⟩)
    | some .putChar =>
      match parse_loop (statements ++ [.putChar]) rest with
      | .error e => .error e
      | .ok (o, ⟨r, hr⟩) => .ok (o, ⟨r, by simpa using Nat.le_succ_of_le hr⟩)
    | some .readChar =>
      match parse_loop (statements ++ [.readChar]) rest with
      | .error e => .error e
      | .ok (o, ⟨r, hr⟩) => .ok (o, ⟨r, by simpa using Nat.le_succ_of_le hr⟩)
    | some .startLoop =>
      match parse_loop [] rest with
      | .error e => .error e
      | .ok (opt_loop, ⟨rest1, h1⟩) =>
        match parse_loop (statements ++ opt_loop.toList) rest1 with
        | .error e => .error e
        | .ok (o, ⟨r, hr⟩) =>
          .ok (o, ⟨r, by
            simp only [List.length_cons]
            omega⟩)
    | some .endLoop =>
      if statements.isEmpty then
        .ok (none, ⟨rest, by simp⟩)
      else
        .ok (some (Statement.new_loop statements), ⟨rest, by simp⟩)
termination_by input => input.length
decreasing_by
  all_goals simp_all
  all_goals omega

/-- The top-level scan of `Parser::parse`, accumulating `result`; an
`EndLoop` token at top level is the unmatched-`]` error. -/
def parseGo (result : List Statement) :
    (input : List Char) → Except String (List Statement)
  | [] => .ok result
  | c :: rest =>
    match tokenize c with
    | none => parseGo result rest
    | some .increment => parseGo (result ++ [.add 1]) rest
    | some .decrement => parseGo (result ++ [.add 255]) rest
    | some .shiftLeft => parseGo (result ++ [.moveLeft 1]) rest
    | some .shiftRight => parseGo (result ++ [.moveRight 1]) rest
    | some .putChar => parseGo (result ++ [.putChar]) rest
    | some .readChar => parseGo (result ++ [.readChar]) rest
    | some .startLoop =>
      match parse_loop [] rest with
      | .error e => .error e
      | .ok (opt_loop, ⟨rest1, h1⟩) => parseGo (result ++ opt_loop.toList) rest1
    | some .endLoop => .error unmatchedEndMsg
termination_by input => input.length
decreasing_by
  all_goals simp_all
  all_goals omega

/-- `Parser::parse` on a character stream. -/
def parse (input : List Char) : Except String (List Statement) :=
  parseGo [] input

namespace brainfuck

/-- Saturating `u8` addition (`u8::saturating_add`). -/
def satAdd (a b : Fin 256) : Fin 256 := ⟨min (a.val + b.val) 255, by omega⟩

/-- Saturating `u8` subtraction (`u8::saturating_sub`). -/
def satSub (a b : Fin 256) : Fin 256 := ⟨a.val - b.val, by omega⟩

/-- `BrainfuckMachine::add_with_wrap` (brainfuck.rs): intended
`(first + other) % modulus`; computes `negated = modulus - first`, then
`first + other` when `negated > other` and `other - negated` otherwise.
The inner `usize` operations are the checked (panic-on-under/overflow)
ones of the source, so the result is an `Option`. -/
def add_with_wrap (first other modulus : Nat) : Option Nat :=
  match checked_sub modulus first with
  | none => none
  | some negated =>
    if negated > other then checked_add first other
    else checked_sub other negated

/-- `BrainfuckMachine::sub_with_wrap` (brainfuck.rs): intended
`(first - other) % modulus`; when `first < other` computes
`negated = modulus - other` and returns `negated + first`, else
`first - other`.  `modulus - other` underflows (panics) whenever
`other > modulus`. -/
def sub_with_wrap (first other modulus : Nat) : Option Nat :=
  if first < other then
    match checked_sub modulus other with
    | none => none
    | some negated => checked_add negated first
  else checked_sub first other

/-- The policy-configurable tape machine of `src/brainfuck.rs`. -/
structure BrainfuckMachine where
  size : Nat
  index : Nat
  tape : List (Fin 256)
  wrap_tape : Bool
  wrap_cells : Bool
  deriving DecidableEq

/-- `BrainfuckMachine::new` (brainfuck.rs). -/
def BrainfuckMachine.new (size : Nat) (wrap_tape wrap_cells : Bool) :
    BrainfuckMachine :=
  ⟨size, 0, List.replicate size 0, wrap_tape, wrap_cells⟩

/-- `BrainfuckMachine::move_left` (brainfuck.rs): `sub_with_wrap` under
the wrap policy, `usize::saturating_sub` (plain `Nat` subtraction)
otherwise. -/
def BrainfuckMachine.move_left (m : BrainfuckMachine) (shift : Nat) :
    Option BrainfuckMachine :=
  match m.wrap_tape with
  | true => (sub_with_wrap m.index shift m.size).map fun i => { m with index := i }
  | false => some { m with index := m.index - shift }

/-- `BrainfuckMachine::move_right` (brainfuck.rs): `add_with_wrap` under
the wrap policy, `saturating_add(shift).min(size - 1)` otherwise (the
`size - 1` is `Nat` subtraction; the spec requires `size > 0`). -/
def BrainfuckMachine.move_right (m : BrainfuckMachine) (shift : Nat) :
    Option BrainfuckMachine :=
  match m.wrap_tape with
  | true => (add_with_wrap m.index shift m.size).map fun i => { m with index := i }
  | false => some { m with index := min (min (m.index + shift) USIZE_MAX) (m.size - 1) }

/-- `BrainfuckMachine::add` (brainfuck.rs): wrapping or saturating cell
addition per `wrap_cells`; `none` is the indexing panic. -/
def BrainfuckMachine.add (m : BrainfuckMachine) (value : Fin 256) :
    Option BrainfuckMachine :=
  (m.tape.get? m.index).map fun current =>
    let updated := match m.wrap_cells with
      | true => current + value
      | false => satAdd current value
    { m with tape := m.tape.set m.index updated }

/-- `BrainfuckMachine::substract` (brainfuck.rs): wrapping or saturating
cell subtraction per `wrap_cells`. -/
def BrainfuckMachine.substract (m : BrainfuckMachine) (value : Fin 256) :
    Option BrainfuckMachine :=
  (m.tape.get? m.index).map fun current =>
    let updated := match m.wrap_cells with
      | true => current - value
      | false => satSub current value
    { m with tape := m.tape.set m.index updated }

/-- `BrainfuckMachine::check_loop` (brainfuck.rs). -/
def BrainfuckMachine.check_loop (m : BrainfuckMachine) : Option Bool :=
  (m.tape.get? m.index).map fun current => current ≠ 0

end brainfuck

/-- The left-to-right subsequence of I/O instructions of a statement
list, descending into loop bodies in order. -/
def ioSeq : List Statement → List Statement
  | [] => []
  | s :: rest => ioOf s ++ ioSeq rest
where
  /-- I/O instructions contributed by one statement. -/
  ioOf : Statement → List Statement
  | .putChar => [.putChar]
  | .readChar => [.readChar]
  | .loop b => ioSeq b
  | _ => []

theorem szList_append (a b : List Statement) :
    szList (a ++ b) = szList a + szList b := by
  induction a with
  | nil => simp [szList]
  | cons s r ih => simp [szList, ih]; omega

theorem szList_gen_le_one (last : Statement) (count : Nat) :
    szList (generate_optimized_stmt last count).toList ≤ 1 := by
  cases count <;> cases last <;> simp [generate_optimized_stmt, szList, szList.sz]

theorem szList_gen_zero (last : Statement) :
    szList (generate_optimized_stmt last 0).toList = 0 := by
  simp [generate_optimized_stmt, szList]

theorem szList_pre_le (last : Statement) (count : Nat) (b : Bool) :
    szList (if b then (generate_optimized_stmt last count).toList else []) ≤
      szList (generate_optimized_stmt last count).toList := by
  cases b <;> simp [szList]


theorem szList_gen_put (c : Nat) :
    szList (generate_optimized_stmt .putChar c).toList = 0 := by
  cases c <;> rfl

theorem szList_gen_read (c : Nat) :
    szList (generate_optimized_stmt .readChar c).toList = 0 := by
  cases c <;> rfl

theorem szList_gen_loop (b : List Statement) (c : Nat) :
    szList (generate_optimized_stmt (.loop b) c).toList = 0 := by
  cases c <;> rfl

theorem passGo_szList_le :
    ∀ (last : Statement) (count : Nat) (l : List Statement),
      szList (passGo last count l) ≤
        szList (generate_optimized_stmt last count).toList + szList l := by
  apply passGo.induct
    (fun s => szList (passGo.optimize_loop s).toList ≤ szList.sz s)
    (fun last count l =>
      szList (passGo last count l) ≤
        szList (generate_optimized_stmt last count).toList + szList l)
  · intro body ih
    simp only [passGo.optimize_loop, Option.toList, szList, szList.sz] at *
    have h0 := szList_gen_zero Statement.readChar
    omega
  · intro s h
    cases s <;> simp_all [passGo.optimize_loop, szList, szList.sz]
  · intro last count
    simp [passGo, szList]
  · intro count rest value a hF hC ih
    simp_all +zetaDelta [passGo, szList, szList.sz, szList_append,
      Statement.is_equal_type, Statement.is_move]
    have hb := szList_gen_le_one (Statement.moveLeft value) (count + value)
    omega
  · intro count rest value a hF hC h ih
    simp_all +zetaDelta [passGo, szList, szList.sz, szList_append,
      Statement.is_equal_type, Statement.is_move]
    have hb := szList_gen_le_one (Statement.moveLeft value) (value - count)
    omega
  · intro count rest value a hF hC h ih
    simp_all +zetaDelta [passGo, szList, szList.sz, szList_append,
      Statement.is_equal_type, Statement.is_move]
    rw [if_neg (show ¬ count < value by omega)]
    have hb := szList_gen_le_one (Statement.moveRight a) (count - value)
    omega
  · intro last count rest value h1 h2 ih
    cases last
    case moveLeft w => exact (h1 w rfl).elim
    case moveRight w => exact (h2 w rfl).elim
    all_goals
      simp_all +zetaDelta [passGo, szList, szList.sz, szList_append,
        Statement.is_equal_type, Statement.is_move, szList_gen_put,
        szList_gen_read, szList_gen_loop]
    all_goals
      have hb := szList_gen_le_one (Statement.moveLeft value) value
    all_goals omega
  · intro count rest value a hF hC ih
    simp_all +zetaDelta [passGo, szList, szList.sz, szList_append,
      Statement.is_equal_type, Statement.is_move]
    have hb := szList_gen_le_one (Statement.moveRight value) (count + value)
    omega
  · intro count rest value a hF hC h ih
    simp_all +zetaDelta [passGo, szList, szList.sz, szList_append,
      Statement.is_equal_type, Statement.is_move]
    have hb := szList_gen_le_one (Statement.moveRight value) (value - count)
    omega
  · intro count rest value a hF hC h ih
    simp_all +zetaDelta [passGo, szList, szList.sz, szList_append,
      Statement.is_equal_type, Statement.is_move]
    rw [if_neg (show ¬ count < value by omega)]
    have hb := szList_gen_le_one (Statement.moveLeft a) (count - value)
    omega
  · intro last count rest value h1 h2 ih
    cases last
    case moveRight w => exact (h1 w rfl).elim
    case moveLeft w => exact (h2 w rfl).elim
    all_goals
      simp_all +zetaDelta [passGo, szList, szList.sz, szList_append,
        Statement.is_equal_type, Statement.is_move, szList_gen_put,
        szList_gen_read, szList_gen_loop]
    all_goals
      have hb := szList_gen_le_one (Statement.moveRight value) value
    all_goals omega
  · intro count rest value a hF hC ih
    simp_all +zetaDelta [passGo, szList, szList.sz, szList_append,
      Statement.is_equal_type, Statement.is_move]
    have hb := szList_gen_le_one (Statement.add value) (value + toU8 count).val
    omega
  · intro last count rest value h1 ih
    cases last
    case add w => exact (h1 w rfl).elim
    all_goals
      simp_all +zetaDelta [passGo, szList, szList.sz, szList_append,
        Statement.is_equal_type, Statement.is_move, szList_gen_put,
        szList_gen_read, szList_gen_loop]
    all_goals
      have hb := szList_gen_le_one (Statement.add value) value.val
    all_goals omega
  · intro last count rest hF hC ih
    cases last <;>
      simp_all +zetaDelta [passGo, szList, szList.sz, szList_append,
        Statement.is_equal_type, Statement.is_move, szList_gen_put,
        szList_gen_read, szList_gen_loop] <;>
      omega
  · intro last count rest hF hC ih
    cases last <;>
      simp_all +zetaDelta [passGo, szList, szList.sz, szList_append,
        Statement.is_equal_type, Statement.is_move, szList_gen_put,
        szList_gen_read, szList_gen_loop] <;>
      omega
  · intro last count rest a hF hC ihLoop ih
    cases last <;>
      simp_all +zetaDelta [passGo, szList, szList.sz, szList_append,
        Statement.is_equal_type, Statement.is_move, szList_gen_put,
        szList_gen_read, szList_gen_loop] <;>
      omega

theorem gen_zero (last : Statement) : generate_optimized_stmt last 0 = none := by
  cases last <;> rfl

theorem gen_ml_pos (a c : Nat) (h : c ≠ 0) :
    generate_optimized_stmt (.moveLeft a) c = some (.moveLeft c) := by
  cases c with
  | zero => exact (h rfl).elim
  | succ n => rfl

theorem gen_mr_pos (a c : Nat) (h : c ≠ 0) :
    generate_optimized_stmt (.moveRight a) c = some (.moveRight c) := by
  cases c with
  | zero => exact (h rfl).elim
  | succ n => rfl

theorem gen_add_pos (a : Fin 256) (c : Nat) (h : c ≠ 0) :
    generate_optimized_stmt (.add a) c = some (.add (toU8 c)) := by
  cases c with
  | zero => exact (h rfl).elim
  | succ n => rfl

theorem szList_gen_ml (a c : Nat) :
    szList (generate_optimized_stmt (.moveLeft a) c).toList = if c = 0 then 0 else 1 := by
  cases c <;> simp [generate_optimized_stmt, szList, szList.sz]

theorem szList_gen_mr (a c : Nat) :
    szList (generate_optimized_stmt (.moveRight a) c).toList = if c = 0 then 0 else 1 := by
  cases c <;> simp [generate_optimized_stmt, szList, szList.sz]

theorem szList_gen_add (a : Fin 256) (c : Nat) :
    szList (generate_optimized_stmt (.add a) c).toList = if c = 0 then 0 else 1 := by
  cases c <;> simp [generate_optimized_stmt, szList, szList.sz]

theorem toU8_zero : toU8 0 = 0 := rfl

theorem toU8_val (v : Fin 256) : toU8 v.val = v := by
  apply Fin.ext
  simp [toU8, Nat.mod_eq_of_lt v.isLt]

theorem gen_put_none (c : Nat) : generate_optimized_stmt .putChar c = none := by
  cases c <;> rfl

theorem gen_read_none (c : Nat) : generate_optimized_stmt .readChar c = none := by
  cases c <;> rfl

theorem gen_loop_none (b : List Statement) (c : Nat) :
    generate_optimized_stmt (.loop b) c = none := by
  cases c <;> rfl

theorem passGo_szList_le_one (st : Statement) (c : Nat) (r : List Statement) :
    szList (passGo st c r) ≤ 1 + szList r := by
  have h1 := passGo_szList_le st c r
  have h2 := szList_gen_le_one st c
  omega

theorem passGo_eq_of_szList_ge :
    ∀ (last : Statement) (count : Nat) (l : List Statement),
      szList (generate_optimized_stmt last count).toList + szList l ≤
          szList (passGo last count l) →
      passGo last count l = (generate_optimized_stmt last count).toList ++ l := by
  apply passGo.induct
    (fun s => szList.sz s ≤ szList (passGo.optimize_loop s).toList →
      (passGo.optimize_loop s).toList = [s])
    (fun last count l =>
      szList (generate_optimized_stmt last count).toList + szList l ≤
          szList (passGo last count l) →
      passGo last count l = (generate_optimized_stmt last count).toList ++ l)
  · -- optimize_loop on a loop
    intro body ih h
    have hL := passGo_szList_le .readChar 0 body
    simp only [passGo.optimize_loop, Option.toList, szList, szList.sz,
      szList_gen_zero] at h hL ⊢
    have hbody : passGo .readChar 0 body = body := by
      have happ := ih (by rw [szList_gen_zero]; omega)
      simpa [gen_zero] using happ
    simp [hbody]
  · -- optimize_loop on a non-loop (source panic; vacuous)
    intro s hns
    cases s <;> simp_all [passGo.optimize_loop, szList, szList.sz]
  · -- empty list: only the trailing flush
    intro last count _
    simp [passGo]
  · -- moveLeft after moveLeft
    intro count rest value a hF hC ih hs
    simp_all +zetaDelta [passGo, szList, szList.sz, szList_append,
      Statement.is_equal_type, Statement.is_move, szList_gen_ml]
    by_cases hc : count = 0
    · subst hc
      simp only [if_pos rfl, Nat.zero_add] at hs ⊢
      have hv : ¬ value = 0 := by
        intro h0
        subst h0
        have hz := passGo_szList_le (Statement.moveLeft 0) 0 rest
        rw [szList_gen_ml] at hz
        simp at hz
        omega
      have happ := ih (by simp [szList_gen_ml, hv]; omega)
      rw [gen_zero]
      simpa [gen_ml_pos value value hv] using happ
    · have hb := passGo_szList_le_one (Statement.moveLeft value) (count + value) rest
      simp [if_neg hc] at hs
      omega
  · -- moveLeft after moveRight, count < value
    intro count rest value a hF hC h ih hs
    simp_all +zetaDelta [passGo, szList, szList.sz, szList_append,
      Statement.is_equal_type, Statement.is_move, szList_gen_mr]
    by_cases hc : count = 0
    · subst hc
      simp only [if_pos rfl, Nat.zero_add, Nat.sub_zero] at hs ⊢
      have hv : ¬ value = 0 := by omega
      have happ := ih (by simp [szList_gen_ml, hv]; omega)
      rw [gen_zero]
      simpa [gen_ml_pos value value hv] using happ
    · have hb := passGo_szList_le_one (Statement.moveLeft value) (value - count) rest
      simp [if_neg hc] at hs
      omega
  · -- moveLeft after moveRight, count >= value (cancellation; vacuous)
    intro count rest value a hF hC h ih hs
    simp_all +zetaDelta [passGo, szList, szList.sz, szList_append,
      Statement.is_equal_type, Statement.is_move, szList_gen_mr]
    by_cases hc : count = 0
    · subst hc
      have hv : value = 0 := by omega
      subst hv
      have hb := passGo_szList_le_one (Statement.moveRight a) 0 rest
      have hz := passGo_szList_le (Statement.moveRight a) 0 rest
      rw [szList_gen_mr] at hz
      simp at hz hs
      omega
    · have hb := passGo_szList_le_one (Statement.moveRight a) (count - value) rest
      simp only [if_neg hc] at hs
      rw [if_neg (show ¬ count < value by omega)] at hs
      omega
  · -- moveLeft after a non-move (flush first)
    intro last count rest value h1 h2 ih hs
    cases last
    case moveLeft w => exact (h1 w rfl).elim
    case moveRight w => exact (h2 w rfl).elim
    all_goals
      simp_all +zetaDelta [passGo, szList, szList.sz, szList_append,
        Statement.is_equal_type, Statement.is_move]
    all_goals
      have hv : ¬ value = 0 := by
        intro h0
        subst h0
        have hz := passGo_szList_le (Statement.moveLeft 0) 0 rest
        rw [szList_gen_ml] at hz
        simp at hz
        omega
    all_goals
      have happ := ih (by simp [szList_gen_ml, hv]; omega)
    all_goals
      simpa [gen_ml_pos value value hv] using happ
  · -- moveRight after moveRight
    intro count rest value a hF hC ih hs
    simp_all +zetaDelta [passGo, szList, szList.sz, szList_append,
      Statement.is_equal_type, Statement.is_move, szList_gen_mr]
    by_cases hc : count = 0
    · subst hc
      simp only [if_pos rfl, Nat.zero_add] at hs ⊢
      have hv : ¬ value = 0 := by
        intro h0
        subst h0
        have hz := passGo_szList_le (Statement.moveRight 0) 0 rest
        rw [szList_gen_mr] at hz
        simp at hz
        omega
      have happ := ih (by simp [szList_gen_mr, hv]; omega)
      rw [gen_zero]
      simpa [gen_mr_pos value value hv] using happ
    · have hb := passGo_szList_le_one (Statement.moveRight value) (count + value) rest
      simp [if_neg hc] at hs
      omega
  · -- moveRight after moveLeft, count < value
    intro count rest value a hF hC h ih hs
    simp_all +zetaDelta [passGo, szList, szList.sz, szList_append,
      Statement.is_equal_type, Statement.is_move, szList_gen_ml]
    by_cases hc : count = 0
    · subst hc
      simp only [if_pos rfl, Nat.zero_add, Nat.sub_zero] at hs ⊢
      have hv : ¬ value = 0 := by omega
      have happ := ih (by simp [szList_gen_mr, hv]; omega)
      rw [gen_zero]
      simpa [gen_mr_pos value value hv] using happ
    · have hb := passGo_szList_le_one (Statement.moveRight value) (value - count) rest
      simp [if_neg hc] at hs
      omega
  · -- moveRight after moveLeft, count >= value (cancellation; vacuous)
    intro count rest value a hF hC h ih hs
    simp_all +zetaDelta [passGo, szList, szList.sz, szList_append,
      Statement.is_equal_type, Statement.is_move, szList_gen_ml]
    by_cases hc : count = 0
    · subst hc
      have hv : value = 0 := by omega
      subst hv
      have hz := passGo_szList_le (Statement.moveLeft a) 0 rest
      rw [szList_gen_ml] at hz
      simp at hz hs
      omega
    · have hb := passGo_szList_le_one (Statement.moveLeft a) (count - value) rest
      simp only [if_neg hc] at hs
      rw [if_neg (show ¬ count < value by omega)] at hs
      omega
  · -- moveRight after a non-move (flush first)
    intro last count rest value h1 h2 ih hs
    cases last
    case moveRight w => exact (h1 w rfl).elim
    case moveLeft w => exact (h2 w rfl).elim
    all_goals
      simp_all +zetaDelta [passGo, szList, szList.sz, szList_append,
        Statement.is_equal_type, Statement.is_move]
    all_goals
      have hv : ¬ value = 0 := by
        intro h0
        subst h0
        have hz := passGo_szList_le (Statement.moveRight 0) 0 rest
        rw [szList_gen_mr] at hz
        simp at hz
        omega
    all_goals
      have happ := ih (by simp [szList_gen_mr, hv]; omega)
    all_goals
      simpa [gen_mr_pos value value hv] using happ
  · -- add after add
    intro count rest value a hF hC ih hs
    simp_all +zetaDelta [passGo, szList, szList.sz, szList_append,
      Statement.is_equal_type, Statement.is_move, szList_gen_add]
    by_cases hc : count = 0
    · subst hc
      simp only [if_pos rfl, Nat.zero_add, toU8_zero, add_zero] at hs ih ⊢
      have hv : ¬ value.val = 0 := by
        intro h0
        have hz := passGo_szList_le (Statement.add value) value.val rest
        rw [szList_gen_add] at hz
        simp [h0] at hz hs
        omega
      have happ := ih (by simp [szList_gen_add, hv]; omega)
      rw [gen_zero]
      simpa [gen_add_pos value value.val hv, toU8_val] using happ
    · have hb := passGo_szList_le_one (Statement.add value) (value + toU8 count).val rest
      simp [if_neg hc] at hs
      omega
  · -- add after a non-add (flush first)
    intro last count rest value h1 ih hs
    cases last
    case add w => exact (h1 w rfl).elim
    all_goals
      simp_all +zetaDelta [passGo, szList, szList.sz, szList_append,
        Statement.is_equal_type, Statement.is_move]
    all_goals
      have hv : ¬ value.val = 0 := by
        intro h0
        have hz := passGo_szList_le (Statement.add value) value.val rest
        rw [szList_gen_add] at hz
        simp [h0] at hz hs
        omega
    all_goals
      have happ := ih (by simp [szList_gen_add, hv]; omega)
    all_goals
      simpa [gen_add_pos value value.val hv, toU8_val] using happ
  · -- putChar
    intro last count rest hF hC ih hs
    cases last <;>
      simp_all +zetaDelta [passGo, szList, szList.sz, szList_append,
        Statement.is_equal_type, Statement.is_move, szList_gen_put] <;>
      simp [gen_put_none, gen_zero]
  · -- readChar
    intro last count rest hF hC ih hs
    cases last <;>
      simp_all +zetaDelta [passGo, szList, szList.sz, szList_append,
        Statement.is_equal_type, Statement.is_move, szList_gen_read] <;>
      simp [gen_read_none, gen_zero]
  · -- loop
    intro last count rest a hF hC ihLoop ih hs
    cases last <;>
      simp_all +zetaDelta [passGo, szList, szList.sz, szList_append,
        Statement.is_equal_type, Statement.is_move, szList_gen_loop]
    all_goals
      have hLa := passGo_szList_le Statement.readChar 0 a
    all_goals
      rw [szList_gen_zero] at hLa
    all_goals
      first
        | (have hLr := passGo_szList_le (Statement.loop a) count rest
           rw [szList_gen_loop] at hLr
           have e1 := ihLoop (by omega)
           have e2 := ih (by omega)
           simp [e1, e2, gen_loop_none])
        | (have hLr := passGo_szList_le (Statement.loop a) 0 rest
           rw [szList_gen_loop] at hLr
           have e1 := ihLoop (by omega)
           have e2 := ih (by omega)
           simp [e1, e2, gen_loop_none])

theorem optimize_once_szList_le (s : List Statement) :
    szList (optimize_once s) ≤ szList s := by
  have h := passGo_szList_le .readChar 0 s
  rw [szList_gen_zero] at h
  simpa [optimize_once] using h

theorem optimize_once_eq_of_szList_ge (s : List Statement)
    (h : szList s ≤ szList (optimize_once s)) : optimize_once s = s := by
  have h2 := passGo_eq_of_szList_ge .readChar 0 s
    (by rw [szList_gen_zero]; simpa [optimize_once] using h)
  simpa [optimize_once, gen_zero] using h2

theorem optimize_once_szList_lt (s : List Statement)
    (h : optimize_once s ≠ s) : szList (optimize_once s) < szList s := by
  rcases Nat.lt_or_ge (szList (optimize_once s)) (szList s) with hlt | hge
  · exact hlt
  · exact (h (optimize_once_eq_of_szList_ge s hge)).elim

theorem optimize_once_reaches_fix (s : List Statement) :
    ∃ k, optimize_once^[k + 1] s = optimize_once^[k] s := by
  by_cases h : optimize_once s = s
  · exact ⟨0, by simpa using h⟩
  · have hlt := optimize_once_szList_lt s h
    have ih := optimize_once_reaches_fix (optimize_once s)
    rcases ih with ⟨k, hk⟩
    exact ⟨k + 1, by
      simpa [Function.iterate_succ_apply] using hk⟩
termination_by szList s

/-- The bounded branch of `Optimizer::optimize` (`max_iterations > 0`):
up to `n` passes, stopping as soon as a pass returns its input. -/
def optimize_bounded : Nat → List Statement → List Statement
  | 0, statements => statements
  | n + 1, statements =>
    let next := optimize_once statements
    if next = statements then statements else optimize_bounded n next

/-- The fixpoint branch of `Optimizer::optimize` (`max_iterations == 0`):
re-run passes until a pass returns its input byte for byte.  Termination
is by the strict node-count decrease of a changing pass. -/
def optimize_fix (statements : List Statement) : List Statement :=
  let next := optimize_once statements
  if h : next = statements then statements else optimize_fix next
termination_by szList statements
decreasing_by exact optimize_once_szList_lt statements h

/-- `Optimizer::optimize` (`max_iterations : u32` modelled as `Nat`). -/
def optimize (max_iterations : Nat) (statements : List Statement) :
    List Statement :=
  if max_iterations = 0 then optimize_fix statements
  else optimize_bounded max_iterations statements

theorem optimize_fix_is_fix (s : List Statement) :
    optimize_once (optimize_fix s) = optimize_fix s := by
  rw [optimize_fix]
  by_cases h : optimize_once s = s
  · simpa [h] using h
  · simp only [h, if_neg]
    exact optimize_fix_is_fix (optimize_once s)
termination_by szList s
decreasing_by exact optimize_once_szList_lt s h

theorem optimize_bounded_spec (n : Nat) (s : List Statement) :
    ∃ k ≤ n, optimize_bounded n s = optimize_once^[k] s ∧
      (k < n → optimize_once (optimize_bounded n s) = optimize_bounded n s) := by
  induction n generalizing s with
  | zero => exact ⟨0, le_rfl, rfl, by omega⟩
  | succ m ih =>
    by_cases h : optimize_once s = s
    · exact ⟨0, by omega, by simp [optimize_bounded, h], fun _ => by
        simp [optimize_bounded, h]⟩
    · rcases ih (optimize_once s) with ⟨k, hk, heq, hfix⟩
      refine ⟨k + 1, by omega, ?_, ?_⟩
      · simpa [optimize_bounded, h, Function.iterate_succ_apply] using heq
      · intro hlt
        have := hfix (by omega)
        simpa [optimize_bounded, h] using this

theorem ioSeq_append (a b : List Statement) :
    ioSeq (a ++ b) = ioSeq a ++ ioSeq b := by
  induction a with
  | nil => simp [ioSeq]
  | cons s r ih => simp [ioSeq, ih]

theorem ioSeq_gen (last : Statement) (c : Nat) :
    ioSeq (generate_optimized_stmt last c).toList = [] := by
  cases c <;> cases last <;> rfl

theorem ioSeq_passGo :
    ∀ (last : Statement) (count : Nat) (l : List Statement),
      ioSeq (passGo last count l) = ioSeq l := by
  apply passGo.induct
    (fun s => ∀ b, s = .loop b →
      ioSeq (passGo.optimize_loop s).toList = ioSeq b)
    (fun last count l => ioSeq (passGo last count l) = ioSeq l)
  · intro body ih b hb
    cases hb
    simp [passGo.optimize_loop, ioSeq, ioSeq.ioOf, ih]
  · intro s hns b hb
    cases hb
    exact (hns b rfl).elim
  · intro last count
    simp [passGo, ioSeq, ioSeq_gen]
  all_goals intros
  all_goals
    simp_all +zetaDelta [passGo, ioSeq, ioSeq.ioOf, ioSeq_append, ioSeq_gen,
      Statement.is_equal_type, Statement.is_move]
  all_goals
    try (split <;> try omega)
  all_goals
    try simp_all [ioSeq_gen]
  all_goals
    rfl

theorem parse_loop_error :
    ∀ (statements : List Statement) (input : List Char) (e : String),
      parse_loop statements input = .error e → e = unmatchedStartMsg := by
  intro statements input
  induction statements, input using parse_loop.induct <;>
    intro e <;>
    simp_all [parse_loop] <;>
    (try split) <;>
    simp_all

theorem parseGo_error :
    ∀ (result : List Statement) (input : List Char) (e : String),
      parseGo result input = .error e →
        e = unmatchedEndMsg ∨ e = unmatchedStartMsg := by
  intro result input
  induction result, input using parseGo.induct <;>
    intro e <;>
    simp_all [parseGo] <;>
    (try split) <;>
    (try simp_all)
  all_goals
    rintro rfl
  all_goals
    rename_i herr
  all_goals
    exact Or.inr (parse_loop_error _ _ _ herr)

/-- Claim C1: the claim states that the nested-representation executor
runs a `Loop` body repeatedly while the current cell is non-zero,
checking before every repetition, so that a loop entered on a zero cell
leaves the machine unchanged.  The source's `Interpreter::run_loop`
never consults `check_loop` and executes the body exactly once
unconditionally: on a fresh machine (current cell `0`, where
`check_loop` answers `false`) executing `Loop([Add(1)])` mutates the
cell to `1` instead of leaving the machine unchanged.  This theorem
evaluates the embedded executor at that failing input. -/
theorem C1_run_loop_ignores_zero_cell :
    (BrainfuckMachine.new 1).check_loop = some false ∧
    run_code [Statement.loop [Statement.add 1]]
        ⟨BrainfuckMachine.new 1, [], []⟩ =
      some ⟨⟨1, 0, [1]⟩, [], []⟩ := by decide

/-- Claim C2: the claim states that a single optimizer pass drops a
`Loop` whose body optimizes to the empty sequence, e.g. a loop holding
only `MoveRight(1)` then `MoveLeft(1)`.  The source's
`Optimizer::optimize_loop` always returns `Some(Loop(result))`, so the
pass outputs `Loop([])` instead of dropping the loop — and even the
run-to-fixpoint optimizer keeps `Loop([])` forever.  This theorem
evaluates the embedded pass (and the fixpoint run) at that input. -/
theorem C2_empty_body_loop_kept :
    optimize_once [Statement.loop [Statement.moveRight 1, Statement.moveLeft 1]] =
      [Statement.loop []] ∧
    optimize 0 [Statement.loop [Statement.moveRight 1, Statement.moveLeft 1]] =
      [Statement.loop []] := by
  constructor
  · rfl
  · simp [optimize]
    rw [optimize_fix]
    rw [optimize_fix]
    decide

/-- Claim C3: the claim states `0 ≤ cursor < size` is an invariant of
the policy-configurable tape machine under arbitrary shift amounts and
either policy.  Under the wrap policy, `add_with_wrap` does not reduce
the shift modulo `size`: from a fresh size-10 machine, `move_right(25)`
succeeds and leaves the cursor at `15 ≥ 10`, breaking the invariant.
This theorem evaluates the embedded machine at that failing input. -/
theorem C3_wrap_cursor_leaves_bounds :
    ((brainfuck.BrainfuckMachine.new 10 true false).move_right 25).map
        brainfuck.BrainfuckMachine.index = some 15 ∧
    ¬ (15 < (brainfuck.BrainfuckMachine.new 10 true false).size) := by decide

/-- Claim C4: the claim states that `move_left`, `move_right`, `add` and
`substract` are total for arbitrary arguments, never under/overflowing
the host integer during the cursor arithmetic.  `sub_with_wrap` computes
`modulus - other` whenever `first < other`, which underflows `usize`
(a panic in a debug build) whenever the shift exceeds the tape size:
`move_left(11)` on a fresh size-10 wrap-policy machine panics.  This
theorem evaluates the embedded helper and machine at that input. -/
theorem C4_move_left_underflow_panics :
    brainfuck.sub_with_wrap 0 11 10 = none ∧
    (brainfuck.BrainfuckMachine.new 10 true false).move_left 11 = none := by decide

/-- Claim C5: the claim states that for every size `n > 1` and every
shift `k`, `move_left(k)` from cursor 0 lands at `(n - k mod n) mod n`
under the wrap policy and at `0` under clamp.  For `n = 10`, `k = 11`
the formula predicts cursor `9`, but the wrap-policy code underflows
`usize` in `sub_with_wrap` (panics) and produces no cursor at all; the
clamp half does hold at this input.  This theorem evaluates the
embedded machine at that failing input. -/
theorem C5_wrap_move_left_diverges_from_modular :
    ((brainfuck.BrainfuckMachine.new 10 true false).move_left 11).map
        brainfuck.BrainfuckMachine.index = none ∧
    ((brainfuck.BrainfuckMachine.new 10 false false).move_left 11).map
        brainfuck.BrainfuckMachine.index = some 0 ∧
    (10 - 11 % 10) % 10 = 9 := by decide

/-- Claim C6 counterexample: a single optimizer pass is not idempotent.
On `[Add(1), MoveLeft(1), MoveRight(1), Add(1)]` (source `"+<>+"`) one
pass cancels the moves and yields `[Add(1), Add(1)]`; a second pass
fuses the newly adjacent adds into `[Add(2)]`, so
`optimize_once (optimize_once s) ≠ optimize_once s`. -/
theorem C6_single_pass_not_idempotent :
    optimize_once (optimize_once
        [Statement.add 1, Statement.moveLeft 1, Statement.moveRight 1, Statement.add 1]) ≠
      optimize_once
        [Statement.add 1, Statement.moveLeft 1, Statement.moveRight 1, Statement.add 1] := by
  decide

/-- Claim C6 (amended): a single pass is not a fixpoint of itself in
general; instead, the sequence produced by running the optimizer to a
fixpoint (`max_iterations = 0`) is a fixpoint of the pass:
`optimize_once (optimize 0 s) = optimize 0 s` for every sequence. -/
theorem C6_fixpoint_run_idempotent (s : List Statement) :
    optimize_once (optimize 0 s) = optimize 0 s := by
  simp only [optimize, if_pos rfl]
  exact optimize_fix_is_fix s

/-- Claim C7: running the optimizer with `max_iterations = 0`
terminates — for every sequence some pass produces exactly its input
after finitely many passes — and with `max_iterations = N > 0` at most
`N` passes are performed, the result being the `k`-th iterate of the
pass for some `k ≤ N`, a fixpoint of the pass whenever `k < N` (early
stop because a pass changed nothing). -/
theorem C7_optimize_terminates :
    (∀ s : List Statement, ∃ k, optimize_once^[k + 1] s = optimize_once^[k] s) ∧
    (∀ (n : Nat) (s : List Statement), n ≠ 0 →
      ∃ k, k ≤ n ∧ optimize n s = optimize_once^[k] s ∧
        (k < n → optimize_once (optimize n s) = optimize n s)) := by
  constructor
  · exact optimize_once_reaches_fix
  · intro n s hn
    simp only [optimize, if_neg hn]
    exact optimize_bounded_spec n s

/-- Claim C7 witness: the termination theorem applied at the concrete
sequence `[Add(1), Add(1)]` and budget `N = 2`. -/
theorem C7_optimize_terminates_witness :
    (∃ k, optimize_once^[k + 1] [Statement.add 1, Statement.add 1] =
      optimize_once^[k] [Statement.add 1, Statement.add 1]) ∧
    (∃ k, k ≤ 2 ∧
      optimize 2 [Statement.add 1, Statement.add 1] =
        optimize_once^[k] [Statement.add 1, Statement.add 1] ∧
      (k < 2 →
        optimize_once (optimize 2 [Statement.add 1, Statement.add 1]) =
          optimize 2 [Statement.add 1, Statement.add 1])) :=
  ⟨C7_optimize_terminates.1 [Statement.add 1, Statement.add 1],
   C7_optimize_terminates.2 2 [Statement.add 1, Statement.add 1] (by decide)⟩

/-- Claim C8: parsing fails with exactly one of two distinct literal
messages — every parse error is either the unmatched-`]` message or the
unmatched-`[` message; `"[[++++----<<<<>>>>]"` fails with the
unmatched-`[` message, `"[++++----]<<<<>>>>]"` fails with the
unmatched-`]` message, and the two literals differ. -/
theorem C8_two_literal_error_messages :
    (∀ (input : List Char) (e : String),
      parse input = .error e → e = unmatchedEndMsg ∨ e = unmatchedStartMsg) ∧
    parse ['[', '[', '+', '+', '+', '+', '-', '-', '-', '-',
           '<', '<', '<', '<', '>', '>', '>', '>', ']'] =
      .error unmatchedStartMsg ∧
    parse ['[', '+', '+', '+', '+', '-', '-', '-', '-', ']',
           '<', '<', '<', '<', '>', '>', '>', '>', ']'] =
      .error unmatchedEndMsg ∧
    unmatchedStartMsg ≠ unmatchedEndMsg := by
  refine ⟨fun input e h => parseGo_error [] input e h, ?_, ?_, by decide⟩
  · simp [parse, parseGo, parse_loop, tokenize]
  · simp [parse, parseGo, parse_loop, tokenize]

/-- Claim C8 witness: the message dichotomy applied at the concrete
unmatched-`[` input, its error hypothesis discharged by the evaluated
parse. -/
theorem C8_two_literal_error_messages_witness :
    unmatchedStartMsg = unmatchedEndMsg ∨ unmatchedStartMsg = unmatchedStartMsg :=
  C8_two_literal_error_messages.1
    ['[', '[', '+', '+', '+', '+', '-', '-', '-', '-',
     '<', '<', '<', '<', '>', '>', '>', '>', ']']
    unmatchedStartMsg
    C8_two_literal_error_messages.2.1

/-- Claim C9: the parser maps each non-loop symbol one-to-one, in source
order, to a unit instruction with no fusion: `"+-><,."` parses to the
six units `Add(1), Add(255), MoveRight(1), MoveLeft(1), ReadChar,
PutChar`. -/
theorem C9_parse_six_unit_instructions :
    parse ['+', '-', '>', '<', ',', '.'] =
      .ok [Statement.add 1, Statement.add 255, Statement.moveRight 1,
           Statement.moveLeft 1, Statement.readChar, Statement.putChar] := by
  simp [parse, parseGo, tokenize]

/-- Claim C10: a single optimizer pass preserves character I/O exactly:
the left-to-right subsequence of `PutChar`/`ReadChar` instructions of
the output — descending into loop bodies in order — equals that of the
input, in kind, count and relative order. -/
theorem C10_single_pass_preserves_io (s : List Statement) :
    ioSeq (optimize_once s) = ioSeq s :=
  ioSeq_passGo .readChar 0 s

theorem optimize_once_matches_repo_test_adds :
    optimize_once [Statement.add 1, Statement.add 2, Statement.add 3, Statement.add 4] =
      [Statement.add 10] := rfl

theorem optimize_once_matches_repo_test_adds_and_moves :
    optimize_once [Statement.moveRight 3, Statement.moveLeft 4, Statement.add 3,
        Statement.add 4, Statement.moveLeft 5, Statement.moveRight 6] =
      [Statement.moveLeft 1, Statement.add 7, Statement.moveRight 1] := rfl

theorem optimize_once_matches_repo_test_adds_no_add :
    optimize_once [Statement.add 3, Statement.add 255, Statement.add 4, Statement.add 250] =
      [] := rfl

theorem parse_matches_repo_test_nested_empty_loops :
    parse ['[', '[', '[', ']', ']', ']'] = .ok [] := by
  simp [parse, parseGo, parse_loop, tokenize]

theorem parse_matches_repo_test_loop_valid :
    parse ['[', '+', '-', '<', '>', ']', '+'] =
      .ok [Statement.new_loop [Statement.add 1, Statement.add 255,
             Statement.moveLeft 1, Statement.moveRight 1], Statement.add 1] := by
  simp [parse, parseGo, parse_loop, tokenize, Statement.new_loop]

theorem machine_matches_repo_test_index_change_wrap :
    (((brainfuck.BrainfuckMachine.new 10 true false).move_left 3).bind
        fun m => m.move_right 6).map brainfuck.BrainfuckMachine.index = some 3 := by decide
